import Mathlib

/-!
# Connection establishment over a serial link (SET / UA handshake)

A shallow embedding of the two programs of the repository:

* `read_noncanonical.c`  (the responder: waits for SET, answers UA)  in namespace `Responder`;
* `write_noncanonical.c` (the initiator: sends SET, waits for UA under an alarm, retries)
  in namespace `Initiator`.

Bytes (`unsigned char`) are natural numbers; every comparison of the source is a comparison
with a constant below 256 or with the XOR of two stored bytes, so no wrap-around occurs.
Console output (`printf`, `perror`) is not modelled.  The serial line accepts every `write`
(the branch `bytes_written < 0` is outside the model); what `read` returns is an input.
-/

namespace Responder

/-- The constant `FRAME_SIZE` (`#define FRAME_SIZE 5`). -/
def FRAME_SIZE : Nat := 5

/-- The `State` enumeration of the source (`typedef enum { ... } State`). -/
inductive State where
  | WAIT_FOR_FLAG
  | WAIT_FOR_A
  | WAIT_FOR_C
  | WAIT_FOR_BCC
  | WAIT_FOR_FLAG_END
  deriving DecidableEq, Repr

/-- The global `UA_FRAME`: FLAG, A (receiver), C (UA), BCC1 = A xor C, FLAG. -/
def UA_FRAME : List Nat := [0x7E, 0x01, 0x07, 0x01 ^^^ 0x07, 0x7E]

/-- The scratch buffer `unsigned char received_frame[FRAME_SIZE]`, cell by cell. -/
structure Buffer where
  b0 : Nat
  b1 : Nat
  b2 : Nat
  b3 : Nat
  b4 : Nat
  deriving DecidableEq, Repr

/-- What `read(fd, &byte, 1)` gives back: a negative count, zero, or one byte. -/
inductive Read where
  | error
  | nodata
  | byte (b : Nat)
  deriving DecidableEq, Repr

/-- The variables of `main` that the loop touches, with the list of frames handed to `write`
and a flag recording that `exit(EXIT_FAILURE)` was taken. -/
structure Loop where
  state : State
  received_frame : Buffer
  STOP : Bool
  written : List (List Nat)
  exited : Bool
  deriving DecidableEq, Repr

/-- The `switch (state)` of the loop body, applied to one received byte. -/
def switchState (s : Loop) (byte : Nat) : Loop :=
  match s.state with
  | State.WAIT_FOR_FLAG =>
    if byte = 0x7E then
      { s with received_frame := { s.received_frame with b0 := byte }, state := State.WAIT_FOR_A }
    else s
  | State.WAIT_FOR_A =>
    if byte = 0x03 then
      { s with received_frame := { s.received_frame with b1 := byte }, state := State.WAIT_FOR_C }
    else if byte ≠ 0x7E then
      { s with state := State.WAIT_FOR_FLAG }
    else s
  | State.WAIT_FOR_C =>
    if byte = 0x03 then
      { s with received_frame := { s.received_frame with b2 := byte }, state := State.WAIT_FOR_BCC }
    else
      { s with state := State.WAIT_FOR_FLAG }
  | State.WAIT_FOR_BCC =>
    if byte = s.received_frame.b1 ^^^ s.received_frame.b2 then
      { s with received_frame := { s.received_frame with b3 := byte },
               state := State.WAIT_FOR_FLAG_END }
    else
      { s with state := State.WAIT_FOR_FLAG }
  | State.WAIT_FOR_FLAG_END =>
    if byte = 0x7E then
      { s with received_frame := { s.received_frame with b4 := byte },
               written := s.written ++ [UA_FRAME],
               STOP := true }
    else
      { s with state := State.WAIT_FOR_FLAG }

/-- One pass through the body of `while (!STOP)`: the read, its two guards, the switch. -/
def loopBody (s : Loop) (r : Read) : Loop :=
  match r with
  | Read.error => { s with exited := true }
  | Read.nodata => s
  | Read.byte b => switchState s b

/-- The loop `while (!STOP) { ... }` run against the successive results of `read`; it is left
when `STOP` is set, and the process is gone once `exit` was called. -/
def responderLoop : Loop → List Read → Loop
  | s, [] => s
  | s, r :: rs => if s.STOP || s.exited then s else responderLoop (loopBody s r) rs

/-- The state at the first loop head: `state = WAIT_FOR_FLAG`, `STOP = FALSE`, nothing written;
`buf` is the content of the uninitialised `received_frame`. -/
def start (buf : Buffer) : Loop :=
  { state := State.WAIT_FOR_FLAG, received_frame := buf, STOP := false, written := [],
    exited := false }

/-- The responder fed a byte sequence, one byte per `read`. -/
def feed (buf : Buffer) (bytes : List Nat) : Loop :=
  responderLoop (start buf) (bytes.map Read.byte)

/-- A result of `read(fd, &byte, 1)` that is not an error: `none` is a zero-length read
(`bytes_read == 0`), `some b` is the byte `b`. -/
def readOf : Option Nat → Read
  | none => Read.nodata
  | some b => Read.byte b

/-- The responder run against reads that do not fail, zero-length reads included. -/
def feedReads (buf : Buffer) (os : List (Option Nat)) : Loop :=
  responderLoop (start buf) (os.map readOf)

/-- The loop is still running and the validator is where a frame may begin: in
`WAIT_FOR_FLAG`, or in `WAIT_FOR_A` (where a further FLAG is taken as the frame start). -/
def awaitsFrame (s : Loop) : Prop :=
  s.STOP = false ∧ (s.state = State.WAIT_FOR_FLAG ∨ s.state = State.WAIT_FOR_A)

/-- What the bytes `bs` consumed so far look like, for each control state `s` the responder
started with buffer `buf` can be in after them. -/
def Tracks (buf : Buffer) (bs : List Nat) (s : Loop) : Prop :=
  s.exited = false ∧
  (if s.STOP = true then
    s.written = [UA_FRAME] ∧ s.state = State.WAIT_FOR_FLAG_END ∧
      s.received_frame = ⟨0x7E, 0x03, 0x03, 0x00, 0x7E⟩ ∧
      ∃ pre post, bs = pre ++ [0x7E, 0x03, 0x03, 0x00, 0x7E] ++ post ∧
        awaitsFrame (feed buf pre)
  else
    s.written = [] ∧
    match s.state with
    | State.WAIT_FOR_FLAG => True
    | State.WAIT_FOR_A =>
      s.received_frame.b0 = 0x7E ∧
      ∃ pre, bs = pre ++ [0x7E] ∧ awaitsFrame (feed buf pre)
    | State.WAIT_FOR_C =>
      s.received_frame.b0 = 0x7E ∧ s.received_frame.b1 = 0x03 ∧
      ∃ pre, bs = pre ++ [0x7E, 0x03] ∧ awaitsFrame (feed buf pre)
    | State.WAIT_FOR_BCC =>
      s.received_frame.b0 = 0x7E ∧ s.received_frame.b1 = 0x03 ∧ s.received_frame.b2 = 0x03 ∧
      ∃ pre, bs = pre ++ [0x7E, 0x03, 0x03] ∧ awaitsFrame (feed buf pre)
    | State.WAIT_FOR_FLAG_END =>
      s.received_frame.b0 = 0x7E ∧ s.received_frame.b1 = 0x03 ∧ s.received_frame.b2 = 0x03 ∧
      s.received_frame.b3 = 0x00 ∧
      ∃ pre, bs = pre ++ [0x7E, 0x03, 0x03, 0x00] ∧ awaitsFrame (feed buf pre))

end Responder

namespace Initiator

/-- The constant `FRAME_SIZE` (`#define FRAME_SIZE 5`). -/
def FRAME_SIZE : Nat := 5

/-- The constant `MAX_RETRIES` (`#define MAX_RETRIES 3`). -/
def MAX_RETRIES : Nat := 3

/-- The constant `TIMEOUT_SEC` (`#define TIMEOUT_SEC 3`). -/
def TIMEOUT_SEC : Nat := 3

/-- The global `EXPECTED_UA`. -/
def EXPECTED_UA : List Nat := [0x7E, 0x01, 0x07, 0x06, 0x7E]

/-- The initialiser of the global `SET_FRAME`. -/
def SET_FRAME_INIT : List Nat := [0x7E, 0x03, 0x03, 0x00, 0x7E]

/-- The global `SET_FRAME` after `SET_FRAME[3] = SET_FRAME[1] ^ SET_FRAME[2]`. -/
def SET_FRAME : List Nat :=
  SET_FRAME_INIT.set 3 (SET_FRAME_INIT.getD 1 0 ^^^ SET_FRAME_INIT.getD 2 0)

/-- What `read(fd, received_frame, sizeof(received_frame))` gives back in one attempt:
`-1` with `errno = EINTR` (the alarm went off), `-1` with another `errno`, or the bytes it
stored (`bytes_read` is their number, at most `FRAME_SIZE`; `bytes []` is a zero-byte read). -/
inductive Read where
  | timeout
  | ioError
  | bytes (l : List Nat)
  deriving DecidableEq, Repr

/-- The variables the retry loop touches.  `alarmArmed` is the pending-alarm flag of the
process, `written` lists the frames handed to `write`, `exited` records `exit(-1)`. -/
structure Loop where
  retryCounter : Nat
  ua_received : Bool
  STOP : Bool
  alarmCounter : Nat
  alarmArmed : Bool
  received_frame : List Nat
  written : List (List Nat)
  exited : Bool
  deriving DecidableEq, Repr

/-- The signal handler `alarmHandler`. -/
def alarmHandler (s : Loop) : Loop :=
  { s with alarmCounter := s.alarmCounter + 1, STOP := true }

/-- The call `alarm(seconds)`: a positive argument arms the alarm, `alarm(0)` cancels it. -/
def alarm (seconds : Nat) (s : Loop) : Loop :=
  { s with alarmArmed := decide (0 < seconds) }

/-- Expiry of the armed alarm: it is no longer pending and `alarmHandler` runs. -/
def expire (s : Loop) : Loop :=
  alarmHandler { s with alarmArmed := false }

/-- The buffer after `memset(received_frame, 0, sizeof(received_frame))`. -/
def memsetZero : List Nat := List.replicate FRAME_SIZE 0

/-- The buffer after `read` stored the bytes `l` at its start. -/
def store (buf l : List Nat) : List Nat :=
  (l ++ buf.drop l.length).take FRAME_SIZE

/-- The test `memcmp(a, b, n) == 0`. -/
def memcmpEq (a b : List Nat) (n : Nat) : Bool :=
  decide (a.take n = b.take n)

/-- One pass through the body of the retry loop, `r` being the result of its `read`. -/
def loopBody (s : Loop) (r : Read) : Loop :=
  let s1 : Loop := { s with written := s.written ++ [SET_FRAME] }
  let s2 : Loop := { s1 with STOP := false, alarmCounter := 0 }
  let s3 : Loop := alarm TIMEOUT_SEC s2
  let s4 : Loop := { s3 with received_frame := memsetZero }
  match r with
  | Read.timeout =>
    let s5 := expire s4
    { s5 with retryCounter := s5.retryCounter + 1 }
  | Read.ioError => { s4 with exited := true }
  | Read.bytes l =>
    let s5 : Loop := { s4 with received_frame := store s4.received_frame l }
    if l.length = 0 then
      { s5 with retryCounter := s5.retryCounter + 1 }
    else
      let s6 := alarm 0 s5
      if l.length = FRAME_SIZE ∧ memcmpEq s6.received_frame EXPECTED_UA FRAME_SIZE = true then
        { s6 with ua_received := true }
      else
        { s6 with retryCounter := s6.retryCounter + 1 }

/-- The loop condition `retryCounter < MAX_RETRIES && !ua_received`.  (The source spells the
counter `retryCount` in this one place; `retryCounter` is the only counter it declares.) -/
def loopCond (s : Loop) : Bool :=
  decide (s.retryCounter < MAX_RETRIES) && !s.ua_received

/-- The retry loop with a bound on the number of passes: `none` when the bound is used up with
the condition still true.  `k` is the number of `read` calls made so far, `link k` the result
of the next one.  A pass that called `exit` ends the run. -/
def loopFrom (link : Nat → Read) : Nat → Nat → Loop → Option Loop
  | 0, _, s => if s.exited || !loopCond s then some s else none
  | fuel + 1, k, s =>
    if s.exited || !loopCond s then some s
    else loopFrom link fuel (k + 1) (loopBody s (link k))

/-- The state when the loop is first reached: `retryCounter = 0`, `ua_received = FALSE`. -/
def start : Loop :=
  { retryCounter := 0, ua_received := false, STOP := false, alarmCounter := 0,
    alarmArmed := false, received_frame := [], written := [], exited := false }

/-- The retry loop of `main`, from its initial state. -/
def initiatorLoop (link : Nat → Read) : Option Loop :=
  loopFrom link MAX_RETRIES 0 start

/-- The state at the `n`-th evaluation of the loop condition (`n = 0` is the first), `none`
when the loop was left, or the process exited, before that. -/
def headState (link : Nat → Read) : Nat → Option Loop
  | 0 => some start
  | n + 1 =>
    match headState link n with
    | none => none
    | some s =>
      if loopCond s then
        (if (loopBody s (link n)).exited then none else some (loopBody s (link n)))
      else none

/-- The message after the loop: `if (!ua_received) printf("... %d retries", retryCounter)`;
`some c` is a failure report carrying the count `c`, `none` is no failure report. -/
def failureReport (s : Loop) : Option Nat :=
  if s.ua_received then none else some s.retryCounter

end Initiator

/-! ## The responder: general facts about the loop -/

namespace Responder

theorem responderLoop_halted (s : Loop) (rs : List Read) (h : (s.STOP || s.exited) = true) :
    responderLoop s rs = s := by
  cases rs with
  | nil => rfl
  | cons r rs => simp [responderLoop, h]

theorem responderLoop_append (s : Loop) (xs ys : List Read) :
    responderLoop s (xs ++ ys) = responderLoop (responderLoop s xs) ys := by
  induction xs generalizing s with
  | nil => rfl
  | cons r rs ih =>
    by_cases h : (s.STOP || s.exited) = true
    · rw [responderLoop_halted s _ h, responderLoop_halted s _ h, responderLoop_halted s _ h]
    · simp only [List.cons_append, responderLoop, h]
      exact ih _

theorem feed_nil (buf : Buffer) : feed buf [] = start buf := rfl

theorem feed_append (buf : Buffer) (xs ys : List Nat) :
    feed buf (xs ++ ys) = responderLoop (feed buf xs) (ys.map Read.byte) := by
  simp [feed, responderLoop_append]

theorem feed_snoc (buf : Buffer) (bs : List Nat) (b : Nat) :
    feed buf (bs ++ [b]) =
      if ((feed buf bs).STOP || (feed buf bs).exited) = true then feed buf bs
      else switchState (feed buf bs) b := by
  rw [feed_append]
  simp only [List.map, responderLoop, loopBody]

theorem responderLoop_stop_mono (s : Loop) (rs : List Read) (h : s.STOP = true) :
    responderLoop s rs = s :=
  responderLoop_halted s rs (by simp [h])

theorem feed_stop_append (buf : Buffer) (xs ys : List Nat) (h : (feed buf xs).STOP = true) :
    feed buf (xs ++ ys) = feed buf xs := by
  rw [feed_append, responderLoop_stop_mono _ _ h]

/-- No match while consuming `l` means no match while consuming any of its beginnings. -/
theorem feed_take_running (buf : Buffer) (l : List Nat) (j : Nat)
    (h : (feed buf l).STOP = false) : (feed buf (l.take j)).STOP = false := by
  cases hj : (feed buf (l.take j)).STOP with
  | false => rfl
  | true =>
    have h2 := feed_stop_append buf (l.take j) (l.drop j) hj
    rw [List.take_append_drop] at h2
    rw [h2, hj] at h
    exact absurd h (by decide)

/-- One step of the loop keeps the description `Tracks` of the bytes consumed so far. -/
theorem tracks_step (buf : Buffer) (bs : List Nat) (b : Nat) (s : Loop)
    (hs : feed buf bs = s) (h : Tracks buf bs s) :
    Tracks buf (bs ++ [b]) (if (s.STOP || s.exited) = true then s else switchState s b) := by
  obtain ⟨st, rf, stop, wr, ex⟩ := s
  obtain ⟨hex, h⟩ := h
  have hex2 : ex = false := hex
  subst hex2
  cases stop with
  | true =>
    simp only [if_true] at h
    obtain ⟨hw, hst, hrf, pre, post, hbs, hpre⟩ := h
    refine ⟨rfl, ?_⟩
    simp only [Bool.true_or, if_true]
    exact ⟨hw, hst, hrf, pre, post ++ [b], by simp [hbs], hpre⟩
  | false =>
    have haw : ∀ st2, (st2 = State.WAIT_FOR_FLAG ∨ st2 = State.WAIT_FOR_A) → st = st2 →
        awaitsFrame (feed buf bs) := by
      intro st2 h2 h3
      rw [hs]
      exact ⟨rfl, by simpa [h3] using h2⟩
    simp only [Bool.false_eq_true, if_false] at h
    obtain ⟨hw, h⟩ := h
    have hw2 : wr = [] := hw
    subst hw2
    cases st with
    | WAIT_FOR_FLAG =>
      by_cases hb : b = 0x7E
      · subst hb
        simp [Tracks, switchState]
        exact haw _ (Or.inl rfl) rfl
      · simp [Tracks, switchState, hb]
    | WAIT_FOR_A =>
      obtain ⟨h0, pre, hbs, hpre⟩ := h
      by_cases hb : b = 0x03
      · subst hb
        simp [Tracks, switchState]
        exact ⟨h0, pre, by simp [hbs], hpre⟩
      · by_cases hb2 : b = 0x7E
        · subst hb2
          simp [Tracks, switchState]
          exact ⟨h0, haw _ (Or.inr rfl) rfl⟩
        · simp [Tracks, switchState, hb, hb2]
    | WAIT_FOR_C =>
      obtain ⟨h0, h1, pre, hbs, hpre⟩ := h
      by_cases hb : b = 0x03
      · subst hb
        simp [Tracks, switchState]
        exact ⟨h0, h1, pre, by simp [hbs], hpre⟩
      · simp [Tracks, switchState, hb]
    | WAIT_FOR_BCC =>
      obtain ⟨h0, h1, h2, pre, hbs, hpre⟩ := h
      have h1b : rf.b1 = 3 := h1
      have h2b : rf.b2 = 3 := h2
      by_cases hb : b = 0x00
      · subst hb
        simp [Tracks, switchState, h1b, h2b]
        exact ⟨h0, pre, by simp [hbs], hpre⟩
      · simp [Tracks, switchState, hb, h1b, h2b]
    | WAIT_FOR_FLAG_END =>
      obtain ⟨h0, h1, h2, h3, pre, hbs, hpre⟩ := h
      by_cases hb : b = 0x7E
      · subst hb
        simp [Tracks, switchState]
        exact ⟨⟨h0, h1, h2, h3⟩, pre, ⟨[], by simp [hbs]⟩, hpre⟩
      · simp [Tracks, switchState, hb]

/-- Every state the responder reaches from `WAIT_FOR_FLAG` is described by `Tracks`. -/
theorem tracks_feed (buf : Buffer) (bs : List Nat) : Tracks buf bs (feed buf bs) := by
  induction bs using List.reverseRecOn with
  | nil => simp [Tracks, feed_nil, start]
  | append_singleton bs b ih =>
    rw [feed_snoc]
    exact tracks_step buf bs b _ rfl ih

theorem feed_not_exited (buf : Buffer) (bs : List Nat) : (feed buf bs).exited = false :=
  (tracks_feed buf bs).1

/-- From a state where a frame may begin, the five bytes of SET lead to the match. -/
theorem frame_matches (s : Loop) (h : awaitsFrame s) (hex : s.exited = false) :
    (responderLoop s ([0x7E, 0x03, 0x03, 0x00, 0x7E].map Read.byte)).STOP = true ∧
    (responderLoop s ([0x7E, 0x03, 0x03, 0x00, 0x7E].map Read.byte)).written =
      s.written ++ [UA_FRAME] := by
  obtain ⟨st, rf, stop, wr, ex⟩ := s
  obtain ⟨h1, h2⟩ := h
  have h1b : stop = false := h1
  have hexb : ex = false := hex
  subst h1b
  subst hexb
  rcases h2 with h2 | h2
  · have h2b : st = State.WAIT_FOR_FLAG := h2
    subst h2b
    simp [responderLoop, loopBody, switchState]
  · have h2b : st = State.WAIT_FOR_A := h2
    subst h2b
    simp [responderLoop, loopBody, switchState]

/-- A match has been produced exactly when the UA frame has been written, once. -/
theorem stop_iff_written (buf : Buffer) (bs : List Nat) :
    (feed buf bs).STOP = true ↔ (feed buf bs).written = [UA_FRAME] := by
  have h := (tracks_feed buf bs).2
  by_cases hs : (feed buf bs).STOP = true
  · simp only [hs, if_true] at h
    simp [hs, h.1]
  · simp only [hs, if_false] at h
    simp [hs, h.1]

/-- A match is produced while consuming `bs` exactly when `bs` holds the SET frame at a place
where the validator is ready for a frame start. -/
theorem match_iff_frame_at_start (buf : Buffer) (bs : List Nat) :
    (feed buf bs).STOP = true ↔
      ∃ pre post, bs = pre ++ [0x7E, 0x03, 0x03, 0x00, 0x7E] ++ post ∧
        awaitsFrame (feed buf pre) := by
  constructor
  · intro hs
    have h := (tracks_feed buf bs).2
    simp only [hs, if_true] at h
    exact h.2.2.2
  · rintro ⟨pre, post, hbs, hpre⟩
    have hm := (frame_matches (feed buf pre) hpre (feed_not_exited buf pre)).1
    rw [← feed_append] at hm
    rw [hbs, feed_stop_append buf _ post hm]
    exact hm

theorem reach_facts (buf : Buffer) (n : List Nat) :
    (feed buf n).exited = false ∧
    ((feed buf n).STOP = true →
      (feed buf n).written = [UA_FRAME] ∧ (feed buf n).state = State.WAIT_FOR_FLAG_END) ∧
    ((feed buf n).STOP = false →
      (feed buf n).written = [] ∧
      ((feed buf n).state = State.WAIT_FOR_BCC →
        (feed buf n).received_frame.b1 = 0x03 ∧ (feed buf n).received_frame.b2 = 0x03)) := by
  obtain ⟨hex, h⟩ := tracks_feed buf n
  refine ⟨hex, ?_, ?_⟩
  · intro hs
    simp only [hs, if_true] at h
    exact ⟨h.1, h.2.1⟩
  · intro hs
    simp only [hs, Bool.false_eq_true, if_false] at h
    refine ⟨h.1, ?_⟩
    intro hst
    have h2 := h.2
    rw [hst] at h2
    exact ⟨h2.2.1, h2.2.2.1⟩

theorem no_match_before (buf : Buffer) (l : List Nat) (m j : Nat) (hj : j ≤ m)
    (h : (feed buf (l.take m)).STOP = false) : (feed buf (l.take j)).STOP = false := by
  have h2 := feed_take_running buf (l.take m) j h
  rwa [List.take_take, Nat.min_eq_left hj] at h2

theorem set_after_noise (buf : Buffer) (n : List Nat) :
    ((feed buf (n ++ [0x7E, 0x03, 0x03, 0x00, 0x7E])).written = [UA_FRAME] ∧
      (feed buf (n ++ [0x7E, 0x03, 0x03, 0x00, 0x7E])).STOP = true ↔
        (feed buf n).state ≠ State.WAIT_FOR_C ∧ (feed buf n).state ≠ State.WAIT_FOR_BCC) ∧
    ((feed buf (n ++ [0x7E, 0x03, 0x03, 0x00, 0x7E])).written = [] ∧
      (feed buf (n ++ [0x7E, 0x03, 0x03, 0x00, 0x7E])).STOP = false ↔
        (feed buf n).state = State.WAIT_FOR_C ∨ (feed buf n).state = State.WAIT_FOR_BCC) := by
  obtain ⟨hex, ht, hf⟩ := reach_facts buf n
  rw [feed_append]
  generalize feed buf n = s at *
  obtain ⟨st, rf, stop, wr, ex⟩ := s
  have hexb : ex = false := hex
  subst hexb
  cases stop with
  | true =>
    obtain ⟨hw, hst⟩ := ht rfl
    have hw2 : wr = [UA_FRAME] := hw
    have hst2 : st = State.WAIT_FOR_FLAG_END := hst
    subst hw2
    subst hst2
    simp [responderLoop]
  | false =>
    obtain ⟨hw, hb⟩ := hf rfl
    have hw2 : wr = [] := hw
    subst hw2
    cases st with
    | WAIT_FOR_BCC =>
      obtain ⟨h1, h2⟩ := hb rfl
      have h1b : rf.b1 = 3 := h1
      have h2b : rf.b2 = 3 := h2
      simp [responderLoop, loopBody, switchState, h1b, h2b]
    | _ => simp [responderLoop, loopBody, switchState]

theorem corrupted_then_good (buf : Buffer) (x : Nat) (hx : x ≠ 0x00) :
    (feed buf [0x7E, 0x03, 0x03, x, 0x7E, 0x7E, 0x03, 0x03, 0x00]).STOP = false ∧
    (feed buf [0x7E, 0x03, 0x03, x, 0x7E, 0x7E, 0x03, 0x03, 0x00, 0x7E]).STOP = true ∧
    (feed buf [0x7E, 0x03, 0x03, x, 0x7E, 0x7E, 0x03, 0x03, 0x00, 0x7E]).written = [UA_FRAME] := by
  simp [feed, responderLoop, loopBody, switchState, start, hx]

theorem flags_await (buf : Buffer) (k : Nat) : awaitsFrame (feed buf (List.replicate k 0x7E)) := by
  induction k with
  | zero => simp [awaitsFrame, feed, responderLoop, start]
  | succ k ih =>
    rw [List.replicate_succ', feed_snoc]
    have hex := feed_not_exited buf (List.replicate k 0x7E)
    generalize feed buf (List.replicate k 0x7E) = s at *
    obtain ⟨st, rf, stop, wr, ex⟩ := s
    obtain ⟨h1, h2⟩ := ih
    have h1b : stop = false := h1
    have hexb : ex = false := hex
    subst h1b
    subst hexb
    rcases h2 with h2 | h2
    · have h2b : st = State.WAIT_FOR_FLAG := h2
      subst h2b
      simp [awaitsFrame, switchState]
    · have h2b : st = State.WAIT_FOR_A := h2
      subst h2b
      simp [awaitsFrame, switchState]

theorem frame_head_running (s : Loop) (h : awaitsFrame s) (hex : s.exited = false) :
    (responderLoop s ([0x7E, 0x03, 0x03, 0x00].map Read.byte)).STOP = false := by
  obtain ⟨st, rf, stop, wr, ex⟩ := s
  obtain ⟨h1, h2⟩ := h
  have h1b : stop = false := h1
  have hexb : ex = false := hex
  subst h1b
  subst hexb
  rcases h2 with h2 | h2
  · have h2b : st = State.WAIT_FOR_FLAG := h2
    subst h2b
    simp [responderLoop, loopBody, switchState]
  · have h2b : st = State.WAIT_FOR_A := h2
    subst h2b
    simp [responderLoop, loopBody, switchState]

/-! ## The responder: the claims -/

/-- C1, counterexample: the sequence 7E 03 7E 03 03 00 7E contains the five bytes
7E 03 03 00 7E contiguously, yet the responder produces no match while consuming it (the FLAG
received in `WAIT_FOR_C` sends the validator to `WAIT_FOR_FLAG`, where 03 03 00 are dropped). -/
theorem c1_contains_frame_without_match :
    (∃ pre post, [0x7E, 0x03, 0x7E, 0x03, 0x03, 0x00, 0x7E] =
        pre ++ [0x7E, 0x03, 0x03, 0x00, 0x7E] ++ post) ∧
    (feed ⟨0, 0, 0, 0, 0⟩ [0x7E, 0x03, 0x7E, 0x03, 0x03, 0x00, 0x7E]).STOP = false ∧
    (feed ⟨0, 0, 0, 0, 0⟩ [0x7E, 0x03, 0x7E, 0x03, 0x03, 0x00, 0x7E]).written = [] :=
  ⟨⟨[0x7E, 0x03], [], rfl⟩, by decide, by decide⟩

/-- C1, amended: for every initial buffer content and every byte sequence, a match (the UA
frame written, `STOP` set) is produced while consuming the sequence if and only if the sequence
contains the five bytes 7E 03 03 00 7E contiguously at a place where the validator, after the
bytes before them, is still running in `WAIT_FOR_FLAG` or `WAIT_FOR_A`. -/
theorem c1_match_iff_frame_at_frame_start (buf : Buffer) (bs : List Nat) :
    ((feed buf bs).STOP = true ↔ (feed buf bs).written = [UA_FRAME]) ∧
    ((feed buf bs).STOP = true ↔
      ∃ pre post, bs = pre ++ [0x7E, 0x03, 0x03, 0x00, 0x7E] ++ post ∧
        (feed buf pre).STOP = false ∧
        ((feed buf pre).state = State.WAIT_FOR_FLAG ∨ (feed buf pre).state = State.WAIT_FOR_A)) :=
  ⟨stop_iff_written buf bs, match_iff_frame_at_start buf bs⟩

/-- C2, counterexample: with the noise 7E 03 before the frame 7E 03 03 00 7E the responder
writes nothing and is still running after the last byte. -/
theorem c2_noise_swallows_frame :
    (feed ⟨0, 0, 0, 0, 0⟩ ([0x7E, 0x03] ++ [0x7E, 0x03, 0x03, 0x00, 0x7E])).written = [] ∧
    (feed ⟨0, 0, 0, 0, 0⟩ ([0x7E, 0x03] ++ [0x7E, 0x03, 0x03, 0x00, 0x7E])).STOP = false :=
  ⟨by decide, by decide⟩

/-- C2, amended: for every noise sequence `n`, the responder fed `n` followed by 7E 03 03 00 7E
has written exactly the UA frame 7E 01 07 06 7E, once, and has `STOP` set after the last byte if
and only if the noise does not leave the validator in `WAIT_FOR_C` or `WAIT_FOR_BCC`; when it
does, nothing is written and the loop is still running. -/
theorem c2_set_after_noise (buf : Buffer) (n : List Nat) :
    ((feed buf (n ++ [0x7E, 0x03, 0x03, 0x00, 0x7E])).written = [[0x7E, 0x01, 0x07, 0x06, 0x7E]] ∧
      (feed buf (n ++ [0x7E, 0x03, 0x03, 0x00, 0x7E])).STOP = true ↔
        (feed buf n).state ≠ State.WAIT_FOR_C ∧ (feed buf n).state ≠ State.WAIT_FOR_BCC) ∧
    ((feed buf (n ++ [0x7E, 0x03, 0x03, 0x00, 0x7E])).written = [] ∧
      (feed buf (n ++ [0x7E, 0x03, 0x03, 0x00, 0x7E])).STOP = false ↔
        (feed buf n).state = State.WAIT_FOR_C ∨ (feed buf n).state = State.WAIT_FOR_BCC) :=
  set_after_noise buf n

/-- C3: for every byte `x` other than 00, the responder fed 7E 03 03 x 7E and then
7E 03 03 00 7E produces no match at any of the first nine bytes and produces the match (UA
written, `STOP` set) at the tenth. -/
theorem c3_corrupted_bcc_then_set (buf : Buffer) (x : Nat) (hx : x ≠ 0x00) :
    (∀ j : Fin 10,
      (feed buf (List.take j.val
        [0x7E, 0x03, 0x03, x, 0x7E, 0x7E, 0x03, 0x03, 0x00, 0x7E])).STOP = false) ∧
    (feed buf [0x7E, 0x03, 0x03, x, 0x7E, 0x7E, 0x03, 0x03, 0x00, 0x7E]).STOP = true ∧
    (feed buf [0x7E, 0x03, 0x03, x, 0x7E, 0x7E, 0x03, 0x03, 0x00, 0x7E]).written = [UA_FRAME] := by
  obtain ⟨h9, h10, hw⟩ := corrupted_then_good buf x hx
  refine ⟨?_, h10, hw⟩
  intro j
  exact no_match_before buf _ 9 j.val (by omega) (by simpa using h9)

/-- C3 at the corrupted checksum byte 01, buffer initially zero. -/
theorem c3_corrupted_bcc_then_set_witness :
    (1 : Nat) ≠ 0x00 ∧
    ((∀ j : Fin 10,
      (feed ⟨0, 0, 0, 0, 0⟩ (List.take j.val
        [0x7E, 0x03, 0x03, 1, 0x7E, 0x7E, 0x03, 0x03, 0x00, 0x7E])).STOP = false) ∧
    (feed ⟨0, 0, 0, 0, 0⟩ [0x7E, 0x03, 0x03, 1, 0x7E, 0x7E, 0x03, 0x03, 0x00, 0x7E]).STOP = true ∧
    (feed ⟨0, 0, 0, 0, 0⟩ [0x7E, 0x03, 0x03, 1, 0x7E, 0x7E, 0x03, 0x03, 0x00, 0x7E]).written =
      [UA_FRAME]) :=
  ⟨by decide, c3_corrupted_bcc_then_set ⟨0, 0, 0, 0, 0⟩ 1 (by decide)⟩

/-- C4: for every `k`, the responder fed `k` FLAG bytes 7E and then 7E 03 03 00 7E produces no
match at any byte before the last one and produces the match at the last byte. -/
theorem c4_stray_flags_then_set (buf : Buffer) (k : Nat) :
    (∀ j : Fin (k + 5),
      (feed buf (List.take j.val
        (List.replicate k 0x7E ++ [0x7E, 0x03, 0x03, 0x00, 0x7E]))).STOP = false) ∧
    (feed buf (List.replicate k 0x7E ++ [0x7E, 0x03, 0x03, 0x00, 0x7E])).STOP = true ∧
    (feed buf (List.replicate k 0x7E ++ [0x7E, 0x03, 0x03, 0x00, 0x7E])).written = [UA_FRAME] := by
  have haw := flags_await buf k
  have hex := feed_not_exited buf (List.replicate k 0x7E)
  have h4 : (feed buf (List.take (k + 4)
      (List.replicate k 0x7E ++ [0x7E, 0x03, 0x03, 0x00, 0x7E]))).STOP = false := by
    have ht : List.take (k + 4) (List.replicate k 0x7E ++ [0x7E, 0x03, 0x03, 0x00, 0x7E]) =
        List.replicate k 0x7E ++ [0x7E, 0x03, 0x03, 0x00] := by
      simp [List.take_append_eq_append_take]
    rw [ht, feed_append]
    exact frame_head_running _ haw hex
  have h5 := (frame_matches _ haw hex).1
  rw [← feed_append] at h5
  refine ⟨?_, h5, (stop_iff_written buf _).mp h5⟩
  intro j
  exact no_match_before buf _ (k + 4) j.val (by omega) h4

end Responder

/-! ## The initiator: general facts about one pass and about the loop -/

namespace Initiator

theorem store_full (l : List Nat) (h : l.length = FRAME_SIZE) : store memsetZero l = l := by
  simp [store, h, FRAME_SIZE] at *

theorem memcmpEq_full (l : List Nat) (h : l.length = FRAME_SIZE) :
    memcmpEq l EXPECTED_UA FRAME_SIZE = true ↔ l = EXPECTED_UA := by
  simp [memcmpEq, FRAME_SIZE, EXPECTED_UA] at *
  rw [List.take_of_length_le (by omega)]

theorem loopBody_ua (s : Loop) (r : Read) :
    (loopBody s r).ua_received = true ↔ s.ua_received = true ∨ r = Read.bytes EXPECTED_UA := by
  cases r with
  | timeout => simp [loopBody, alarm, expire, alarmHandler]
  | ioError => simp [loopBody, alarm, expire, alarmHandler]
  | bytes l =>
    by_cases h5 : l.length = FRAME_SIZE
    · have h0 : ¬ FRAME_SIZE = 0 := by decide
      simp only [loopBody, alarm, h0, if_false, h5, true_and, store_full l h5, memcmpEq_full l h5]
      by_cases hl : l = EXPECTED_UA
      · simp [hl]
      · simp [hl]
    · have hl : l ≠ EXPECTED_UA := by
        intro hl
        apply h5
        rw [hl]
        rfl
      simp only [loopBody, alarm, h5, false_and, if_false]
      split <;> simp [hl]

theorem loopBody_written (s : Loop) (r : Read) :
    (loopBody s r).written = s.written ++ [SET_FRAME] := by
  cases r with
  | timeout => simp [loopBody, alarm, expire, alarmHandler]
  | ioError => simp [loopBody, alarm, expire, alarmHandler]
  | bytes l =>
    simp only [loopBody, alarm]
    split
    · rfl
    · split <;> rfl

theorem loopBody_exited (s : Loop) (r : Read) :
    (loopBody s r).exited = true ↔ s.exited = true ∨ r = Read.ioError := by
  cases r with
  | timeout => simp [loopBody, alarm, expire, alarmHandler]
  | ioError => simp [loopBody, alarm, expire, alarmHandler]
  | bytes l =>
    simp only [loopBody, alarm]
    split
    · simp
    · split <;> simp

theorem loopBody_counter (s : Loop) (r : Read) :
    (loopBody s r).retryCounter =
      if r = Read.ioError ∨ r = Read.bytes EXPECTED_UA then s.retryCounter
      else s.retryCounter + 1 := by
  cases r with
  | timeout => simp [loopBody, alarm, expire, alarmHandler]
  | ioError => simp [loopBody, alarm, expire, alarmHandler]
  | bytes l =>
    by_cases h5 : l.length = FRAME_SIZE
    · have h0 : ¬ FRAME_SIZE = 0 := by decide
      simp only [loopBody, alarm, h0, if_false, h5, true_and, store_full l h5, memcmpEq_full l h5]
      by_cases hl : l = EXPECTED_UA
      · simp [hl]
      · simp [hl]
    · have hl : l ≠ EXPECTED_UA := by
        intro hl
        apply h5
        rw [hl]
        rfl
      simp only [loopBody, alarm, h5, false_and, if_false]
      split <;> simp [hl]


/-- A read that neither ends the process nor delivers the UA frame: a timeout, a zero-byte
read, or bytes other than 7E 01 07 06 7E. -/
theorem loopBody_fail (s : Loop) (r : Read) (h1 : r ≠ Read.ioError)
    (h2 : r ≠ Read.bytes EXPECTED_UA) :
    (loopBody s r).retryCounter = s.retryCounter + 1 ∧
    (loopBody s r).ua_received = s.ua_received ∧
    (loopBody s r).exited = s.exited ∧
    (loopBody s r).written = s.written ++ [SET_FRAME] := by
  refine ⟨?_, ?_, ?_, loopBody_written s r⟩
  · rw [loopBody_counter]
    simp [h1, h2]
  · rw [Bool.eq_iff_iff, loopBody_ua]
    simp [h2]
  · rw [Bool.eq_iff_iff, loopBody_exited]
    simp [h1]

theorem loopBody_success (s : Loop) :
    (loopBody s (Read.bytes EXPECTED_UA)).retryCounter = s.retryCounter ∧
    (loopBody s (Read.bytes EXPECTED_UA)).ua_received = true ∧
    (loopBody s (Read.bytes EXPECTED_UA)).exited = s.exited ∧
    (loopBody s (Read.bytes EXPECTED_UA)).written = s.written ++ [SET_FRAME] := by
  refine ⟨?_, ?_, ?_, loopBody_written s _⟩
  · rw [loopBody_counter]
    simp
  · rw [loopBody_ua]
    simp
  · rw [Bool.eq_iff_iff, loopBody_exited]
    simp

theorem loopFrom_done (link : Nat → Read) (fuel k : Nat) (s : Loop)
    (h : (s.exited || !loopCond s) = true) : loopFrom link fuel k s = some s := by
  cases fuel with
  | zero => simp [loopFrom, h]
  | succ fuel => simp [loopFrom, h]

theorem loopFrom_step (link : Nat → Read) (fuel k : Nat) (s : Loop)
    (hex : s.exited = false) (hc : loopCond s = true) :
    loopFrom link (fuel + 1) k s = loopFrom link fuel (k + 1) (loopBody s (link k)) := by
  simp [loopFrom, hex, hc]

theorem loopCond_iff (s : Loop) :
    loopCond s = true ↔ s.retryCounter < MAX_RETRIES ∧ s.ua_received = false := by
  simp [loopCond]

/-- The loop returns as soon as the bound covers the retries that are left. -/
theorem loopFrom_terminates (link : Nat → Read) :
    ∀ (fuel k : Nat) (s : Loop), MAX_RETRIES ≤ s.retryCounter + fuel →
      ∃ t, loopFrom link fuel k s = some t := by
  intro fuel
  induction fuel with
  | zero =>
    intro k s h
    refine ⟨s, loopFrom_done link 0 k s ?_⟩
    have hc : loopCond s = false := by
      rw [← Bool.not_eq_true, loopCond_iff]
      omega
    simp [hc]
  | succ fuel ih =>
    intro k s h
    by_cases hh : (s.exited || !loopCond s) = true
    · exact ⟨s, loopFrom_done link _ k s hh⟩
    · simp only [Bool.or_eq_true, Bool.not_eq_true', not_or, Bool.not_eq_true,
        Bool.not_eq_false] at hh
      rw [loopFrom_step link fuel k s hh.1 hh.2]
      by_cases h1 : link k = Read.ioError
      · refine ⟨_, loopFrom_done link fuel (k + 1) _ ?_⟩
        have := (loopBody_exited s (link k)).mpr (Or.inr h1)
        simp [this]
      · by_cases h2 : link k = Read.bytes EXPECTED_UA
        · refine ⟨_, loopFrom_done link fuel (k + 1) _ ?_⟩
          have hu : (loopBody s (link k)).ua_received = true :=
            (loopBody_ua s (link k)).mpr (Or.inr h2)
          simp [loopCond, hu]
        · apply ih
          rw [(loopBody_fail s (link k) h1 h2).1]
          omega

/-- A run that ends with `ua_received` set has read the UA frame in one of its passes. -/
theorem loopFrom_ua (link : Nat → Read) :
    ∀ (fuel k : Nat) (s t : Loop), loopFrom link fuel k s = some t → t.ua_received = true →
      s.ua_received = true ∨ ∃ j, k ≤ j ∧ j < k + fuel ∧ link j = Read.bytes EXPECTED_UA := by
  intro fuel
  induction fuel with
  | zero =>
    intro k s t h hu
    by_cases hh : (s.exited || !loopCond s) = true
    · rw [loopFrom_done link 0 k s hh] at h
      cases h
      exact Or.inl hu
    · simp [loopFrom, hh] at h
  | succ fuel ih =>
    intro k s t h hu
    by_cases hh : (s.exited || !loopCond s) = true
    · rw [loopFrom_done link _ k s hh] at h
      cases h
      exact Or.inl hu
    · simp only [Bool.or_eq_true, Bool.not_eq_true', not_or, Bool.not_eq_true,
        Bool.not_eq_false] at hh
      rw [loopFrom_step link fuel k s hh.1 hh.2] at h
      rcases ih (k + 1) _ t h hu with h3 | ⟨j, hj1, hj2, hj3⟩
      · rcases (loopBody_ua s (link k)).mp h3 with h4 | h4
        · exact Or.inl h4
        · exact Or.inr ⟨k, le_refl k, by omega, h4⟩
      · exact Or.inr ⟨j, by omega, by omega, hj3⟩


theorem headState_succ (link : Nat → Read) (n : Nat) (t : Loop) :
    headState link (n + 1) = some t ↔
      ∃ s, headState link n = some s ∧ loopCond s = true ∧
        (loopBody s (link n)).exited = false ∧ t = loopBody s (link n) := by
  simp only [headState]
  cases h : headState link n with
  | none => simp
  | some s =>
    by_cases hc : loopCond s = true
    · by_cases he : (loopBody s (link n)).exited = true
      · simp [hc, he]
      · simp [hc, he]
        constructor
        · intro h2
          exact h2.symm
        · intro h2
          exact h2.symm
    · simp [hc]

/-- At the `n`-th loop head `n` SET frames have been written, and `n` is the retry counter,
plus one when the last pass was the successful one. -/
theorem head_inv (link : Nat → Read) :
    ∀ (n : Nat) (s : Loop), headState link n = some s →
      s.exited = false ∧ s.written = List.replicate n SET_FRAME ∧
      n = s.retryCounter + (if s.ua_received = true then 1 else 0) ∧ n ≤ MAX_RETRIES := by
  intro n
  induction n with
  | zero =>
    intro s h
    simp only [headState, Option.some.injEq] at h
    subst h
    simp [start]
  | succ n ih =>
    intro t h
    obtain ⟨s, hs, hc, he, ht⟩ := (headState_succ link n t).mp h
    obtain ⟨_, hw, hn, _⟩ := ih s hs
    obtain ⟨hc1, hc2⟩ := (loopCond_iff s).mp hc
    rw [hc2] at hn
    simp only [Bool.false_eq_true, if_false, Nat.add_zero] at hn
    have h1 : link n ≠ Read.ioError := by
      intro h1
      have := (loopBody_exited s (link n)).mpr (Or.inr h1)
      rw [he] at this
      exact absurd this (by decide)
    subst ht
    refine ⟨he, ?_, ?_, by omega⟩
    · rw [loopBody_written, hw, List.replicate_succ']
    · by_cases h2 : link n = Read.bytes EXPECTED_UA
      · rw [h2]
        obtain ⟨ha, hb, _, _⟩ := loopBody_success s
        rw [ha, hb]
        simp
        omega
      · obtain ⟨ha, hb, _, _⟩ := loopBody_fail s (link n) h1 h2
        rw [ha, hb, hc2]
        simp
        omega

/-- The loop run from a reached loop head is the loop run from the start. -/
theorem head_loop (link : Nat → Read) :
    ∀ (n : Nat) (s : Loop), headState link n = some s →
      loopFrom link (MAX_RETRIES - n) n s = initiatorLoop link := by
  intro n
  induction n with
  | zero =>
    intro s h
    simp only [headState, Option.some.injEq] at h
    subst h
    rfl
  | succ n ih =>
    intro t h
    obtain ⟨s, hs, hc, he, ht⟩ := (headState_succ link n t).mp h
    have hle := (head_inv link (n + 1) t h).2.2.2
    have hex := (head_inv link n s hs).1
    rw [← ih s hs]
    have hf : MAX_RETRIES - n = (MAX_RETRIES - (n + 1)) + 1 := by omega
    rw [hf, loopFrom_step link _ n s hex hc, ht]


/-- Where the loop ends: at a loop head whose condition is false, or inside a pass whose
read failed with an I/O error. -/
theorem loopFrom_result (link : Nat → Read) :
    ∀ (fuel n : Nat) (s t : Loop), headState link n = some s → loopFrom link fuel n s = some t →
      (∃ m, headState link m = some t ∧ loopCond t = false) ∨
      (∃ m s2, headState link m = some s2 ∧ loopCond s2 = true ∧ link m = Read.ioError ∧
        t = loopBody s2 Read.ioError) := by
  intro fuel
  induction fuel with
  | zero =>
    intro n s t hs h
    have hex := (head_inv link n s hs).1
    by_cases hc : loopCond s = true
    · simp [loopFrom, hex, hc] at h
    · simp only [Bool.not_eq_true] at hc
      simp only [loopFrom, hex, hc, Bool.not_false, Bool.or_true, if_true,
        Option.some.injEq] at h
      subst h
      exact Or.inl ⟨n, hs, hc⟩
  | succ fuel ih =>
    intro n s t hs h
    have hex := (head_inv link n s hs).1
    by_cases hc : loopCond s = true
    · rw [loopFrom_step link fuel n s hex hc] at h
      by_cases h1 : link n = Read.ioError
      · have he : (loopBody s (link n)).exited = true :=
          (loopBody_exited s (link n)).mpr (Or.inr h1)
        rw [loopFrom_done link fuel (n + 1) _ (by simp [he])] at h
        simp only [Option.some.injEq] at h
        rw [h1] at h
        exact Or.inr ⟨n, s, hs, hc, h1, h.symm⟩
      · have he : (loopBody s (link n)).exited = false := by
          cases hb : (loopBody s (link n)).exited with
          | false => rfl
          | true =>
            rcases (loopBody_exited s (link n)).mp hb with h3 | h3
            · rw [hex] at h3
              exact absurd h3 (by decide)
            · exact absurd h3 h1
        exact ih (n + 1) _ t ((headState_succ link n _).mpr ⟨s, hs, hc, he, rfl⟩) h
    · simp only [Bool.not_eq_true] at hc
      rw [loopFrom_done link _ n s (by simp [hc])] at h
      simp only [Option.some.injEq] at h
      subst h
      exact Or.inl ⟨n, hs, hc⟩

/-- The loop ends, and at most `MAX_RETRIES` SET frames have been written when it does. -/
theorem loop_writes_bounded (link : Nat → Read) :
    ∃ t, initiatorLoop link = some t ∧ t.written.length ≤ MAX_RETRIES ∧
      ∀ f ∈ t.written, f = SET_FRAME := by
  obtain ⟨t, ht⟩ := loopFrom_terminates link MAX_RETRIES 0 start (by simp [start])
  refine ⟨t, ht, ?_⟩
  rcases loopFrom_result link MAX_RETRIES 0 start t rfl ht with
    ⟨m, hm, _⟩ | ⟨m, s2, hm, hc, _, h2⟩
  · obtain ⟨_, hw, _, hle⟩ := head_inv link m t hm
    rw [hw]
    simp only [List.length_replicate]
    exact ⟨hle, fun f hf => (List.eq_of_mem_replicate hf)⟩
  · obtain ⟨_, hw, hn, _⟩ := head_inv link m s2 hm
    obtain ⟨hc1, hc2⟩ := (loopCond_iff s2).mp hc
    rw [hc2] at hn
    simp only [Bool.false_eq_true, if_false, Nat.add_zero] at hn
    rw [h2, loopBody_written, hw, ← List.replicate_succ']
    simp only [List.length_replicate]
    exact ⟨by omega, fun f hf => (List.eq_of_mem_replicate hf)⟩

/-! ## The initiator: the claims -/

/-- C5, counterexample: when the link delivers a stray FLAG followed by 7E 01 07 06 7E, the
attempt's `read` of `FRAME_SIZE` bytes returns 7E 7E 01 07 06; the pass leaves `ua_received`
FALSE and counts a retry. -/
theorem c5_stray_flag_fails_attempt :
    (loopBody start (Read.bytes (List.take FRAME_SIZE (0x7E :: EXPECTED_UA)))).ua_received =
      false ∧
    (loopBody start (Read.bytes (List.take FRAME_SIZE (0x7E :: EXPECTED_UA)))).retryCounter =
      1 :=
  ⟨by decide, by decide⟩

/-- C5, amended: the initiator has no byte-by-byte validator; a pass started with
`ua_received` FALSE sets it if and only if its single `read` returns exactly 7E 01 07 06 7E.
When the link delivers a stray FLAG followed by 7E 01 07 06 7E, whatever beginning of that
stream (up to `FRAME_SIZE` bytes) the `read` returns, and also when it times out, the pass
leaves `ua_received` FALSE and increases `retryCounter` by one. -/
theorem c5_accepts_only_exact_read (s : Loop) (hs : s.ua_received = false) :
    (∀ r, (loopBody s r).ua_received = true ↔ r = Read.bytes EXPECTED_UA) ∧
    (∀ n : Fin (FRAME_SIZE + 1),
      (loopBody s (Read.bytes (List.take n.val (0x7E :: EXPECTED_UA)))).ua_received = false ∧
      (loopBody s (Read.bytes (List.take n.val (0x7E :: EXPECTED_UA)))).retryCounter =
        s.retryCounter + 1) ∧
    (loopBody s Read.timeout).ua_received = false ∧
    (loopBody s Read.timeout).retryCounter = s.retryCounter + 1 := by
  have hfail : ∀ r, r ≠ Read.ioError → r ≠ Read.bytes EXPECTED_UA →
      (loopBody s r).ua_received = false ∧ (loopBody s r).retryCounter = s.retryCounter + 1 := by
    intro r h1 h2
    obtain ⟨ha, hb, _, _⟩ := loopBody_fail s r h1 h2
    exact ⟨by rw [hb, hs], ha⟩
  refine ⟨?_, ?_, hfail _ (by decide) (by decide)⟩
  · intro r
    rw [loopBody_ua, hs]
    simp
  · intro n
    apply hfail _ (by simp)
    intro h
    have h2 : List.take n.val (0x7E :: EXPECTED_UA) = EXPECTED_UA := by
      injection h
    have hn := n.isLt
    have h3 : n.val ≤ 5 := by
      simp only [FRAME_SIZE] at hn
      omega
    interval_cases n.val <;> simp [EXPECTED_UA] at h2

/-- C5 (amended) at the initial state of the loop. -/
theorem c5_accepts_only_exact_read_witness :
    start.ua_received = false ∧
    ((∀ r, (loopBody start r).ua_received = true ↔ r = Read.bytes EXPECTED_UA) ∧
    (∀ n : Fin (FRAME_SIZE + 1),
      (loopBody start (Read.bytes (List.take n.val (0x7E :: EXPECTED_UA)))).ua_received = false ∧
      (loopBody start (Read.bytes (List.take n.val (0x7E :: EXPECTED_UA)))).retryCounter =
        start.retryCounter + 1) ∧
    (loopBody start Read.timeout).ua_received = false ∧
    (loopBody start Read.timeout).retryCounter = start.retryCounter + 1) :=
  ⟨rfl, c5_accepts_only_exact_read start rfl⟩

/-- C6: when every read times out, returns zero bytes or returns bytes other than
7E 01 07 06 7E, the loop ends after exactly three writes of the SET frame 7E 03 03 00 7E, with
`ua_received` FALSE and `retryCounter` 3, and the failure message reports 3. -/
theorem c6_three_writes_then_failure (link : Nat → Read)
    (h : ∀ k, link k = Read.timeout ∨ ∃ l, link k = Read.bytes l ∧ l ≠ EXPECTED_UA) :
    ∃ t, initiatorLoop link = some t ∧
      t.written = [[0x7E, 0x03, 0x03, 0x00, 0x7E], [0x7E, 0x03, 0x03, 0x00, 0x7E],
        [0x7E, 0x03, 0x03, 0x00, 0x7E]] ∧
      t.ua_received = false ∧ t.retryCounter = 3 ∧ t.exited = false ∧
      failureReport t = some 3 := by
  have hf : ∀ k, link k ≠ Read.ioError ∧ link k ≠ Read.bytes EXPECTED_UA := by
    intro k
    rcases h k with h1 | ⟨l, h1, h2⟩
    · rw [h1]
      exact ⟨by decide, by simp⟩
    · rw [h1]
      exact ⟨by simp, by simpa using h2⟩
  obtain ⟨a1, b1, c1, d1⟩ := loopBody_fail start (link 0) (hf 0).1 (hf 0).2
  obtain ⟨a2, b2, c2, d2⟩ := loopBody_fail (loopBody start (link 0)) (link 1) (hf 1).1 (hf 1).2
  obtain ⟨a3, b3, c3, d3⟩ :=
    loopBody_fail (loopBody (loopBody start (link 0)) (link 1)) (link 2) (hf 2).1 (hf 2).2
  have e1 : (loopBody start (link 0)).retryCounter = 1 := by rw [a1]; rfl
  have e2 : (loopBody (loopBody start (link 0)) (link 1)).retryCounter = 2 := by rw [a2, e1]
  have e3 : (loopBody (loopBody (loopBody start (link 0)) (link 1)) (link 2)).retryCounter = 3 := by
    rw [a3, e2]
  have u1 : (loopBody start (link 0)).ua_received = false := by rw [b1]; rfl
  have u2 : (loopBody (loopBody start (link 0)) (link 1)).ua_received = false := by rw [b2, u1]
  have u3 : (loopBody (loopBody (loopBody start (link 0)) (link 1)) (link 2)).ua_received =
      false := by rw [b3, u2]
  have x1 : (loopBody start (link 0)).exited = false := by rw [c1]; rfl
  have x2 : (loopBody (loopBody start (link 0)) (link 1)).exited = false := by rw [c2, x1]
  have x3 : (loopBody (loopBody (loopBody start (link 0)) (link 1)) (link 2)).exited = false := by
    rw [c3, x2]
  refine ⟨loopBody (loopBody (loopBody start (link 0)) (link 1)) (link 2), ?_, ?_, u3, e3, x3, ?_⟩
  · show loopFrom link (2 + 1) 0 start = _
    rw [loopFrom_step link 2 0 start rfl (by decide),
      loopFrom_step link 1 1 _ x1 ((loopCond_iff _).mpr ⟨by rw [e1]; decide, u1⟩),
      loopFrom_step link 0 2 _ x2 ((loopCond_iff _).mpr ⟨by rw [e2]; decide, u2⟩)]
    apply loopFrom_done
    simp [loopCond, e3, MAX_RETRIES]
  · rw [d3, d2, d1]
    rfl
  · simp [failureReport, u3, e3]

/-- C6 on the link whose every read times out. -/
theorem c6_three_writes_then_failure_witness :
    (∀ k : Nat, (fun _ => Read.timeout) k = Read.timeout ∨
      ∃ l, (fun _ => Read.timeout) k = Read.bytes l ∧ l ≠ EXPECTED_UA) ∧
    ∃ t, initiatorLoop (fun _ => Read.timeout) = some t ∧
      t.written = [[0x7E, 0x03, 0x03, 0x00, 0x7E], [0x7E, 0x03, 0x03, 0x00, 0x7E],
        [0x7E, 0x03, 0x03, 0x00, 0x7E]] ∧
      t.ua_received = false ∧ t.retryCounter = 3 ∧ t.exited = false ∧
      failureReport t = some 3 :=
  ⟨fun _ => Or.inl rfl, c6_three_writes_then_failure (fun _ => Read.timeout) (fun _ => Or.inl rfl)⟩

/-- C7, counterexample: first read times out, second read returns 7E 01 07 06 7E: the loop
ends with `ua_received` TRUE after two writes of SET, and `retryCounter` is 1, not 2. -/
theorem c7_counter_is_one_after_second_attempt :
    (initiatorLoop (fun k => if k = 0 then Read.timeout else Read.bytes EXPECTED_UA)).map
      (fun t => (t.ua_received, t.written.length, t.retryCounter)) = some (true, 2, 1) := by
  decide

/-- C7, amended: when the first read fails (timeout, zero bytes or a wrong frame) and the
second returns exactly 7E 01 07 06 7E, the loop ends with `ua_received` TRUE, exactly two
writes of the SET frame, no failure message, and `retryCounter` equal to 1 (the counter counts
the failed attempts only). -/
theorem c7_success_on_second_attempt (link : Nat → Read)
    (h0 : link 0 = Read.timeout ∨ ∃ l, link 0 = Read.bytes l ∧ l ≠ EXPECTED_UA)
    (h1 : link 1 = Read.bytes EXPECTED_UA) :
    ∃ t, initiatorLoop link = some t ∧
      t.written = [[0x7E, 0x03, 0x03, 0x00, 0x7E], [0x7E, 0x03, 0x03, 0x00, 0x7E]] ∧
      t.ua_received = true ∧ t.retryCounter = 1 ∧ t.exited = false ∧
      failureReport t = none := by
  have hf : link 0 ≠ Read.ioError ∧ link 0 ≠ Read.bytes EXPECTED_UA := by
    rcases h0 with h | ⟨l, h, h2⟩
    · rw [h]
      exact ⟨by decide, by simp⟩
    · rw [h]
      exact ⟨by simp, by simpa using h2⟩
  obtain ⟨a1, b1, c1, d1⟩ := loopBody_fail start (link 0) hf.1 hf.2
  obtain ⟨a2, b2, c2, d2⟩ := loopBody_success (loopBody start (link 0))
  have e1 : (loopBody start (link 0)).retryCounter = 1 := by rw [a1]; rfl
  have u1 : (loopBody start (link 0)).ua_received = false := by rw [b1]; rfl
  have x1 : (loopBody start (link 0)).exited = false := by rw [c1]; rfl
  refine ⟨loopBody (loopBody start (link 0)) (Read.bytes EXPECTED_UA), ?_, ?_, b2, ?_, ?_, ?_⟩
  · show loopFrom link (2 + 1) 0 start = _
    rw [loopFrom_step link 2 0 start rfl (by decide),
      loopFrom_step link 1 1 _ x1 ((loopCond_iff _).mpr ⟨by rw [e1]; decide, u1⟩), h1]
    apply loopFrom_done
    simp [loopCond, b2]
  · rw [d2, d1]
    rfl
  · rw [a2, e1]
  · rw [c2, x1]
  · simp [failureReport, b2]

/-- C7 (amended) on the link whose first read times out and whose later reads return UA. -/
theorem c7_success_on_second_attempt_witness :
    ((fun k => if k = 0 then Read.timeout else Read.bytes EXPECTED_UA) 0 = Read.timeout ∨
      ∃ l, (fun k => if k = 0 then Read.timeout else Read.bytes EXPECTED_UA) 0 = Read.bytes l ∧
        l ≠ EXPECTED_UA) ∧
    (fun k => if k = 0 then Read.timeout else Read.bytes EXPECTED_UA) 1 =
      Read.bytes EXPECTED_UA ∧
    ∃ t, initiatorLoop (fun k => if k = 0 then Read.timeout else Read.bytes EXPECTED_UA) =
        some t ∧
      t.written = [[0x7E, 0x03, 0x03, 0x00, 0x7E], [0x7E, 0x03, 0x03, 0x00, 0x7E]] ∧
      t.ua_received = true ∧ t.retryCounter = 1 ∧ t.exited = false ∧
      failureReport t = none :=
  ⟨Or.inl rfl, rfl,
    c7_success_on_second_attempt (fun k => if k = 0 then Read.timeout else Read.bytes EXPECTED_UA)
      (Or.inl rfl) rfl⟩

/-- C8, counterexample: when the first read returns 7E 01 07 06 7E, the loop head reached
after that pass has one SET write performed and a retry counter of 0. -/
theorem c8_head_after_success_unbalanced :
    (headState (fun _ => Read.bytes EXPECTED_UA) 1).map
      (fun s => (s.ua_received, s.written.length, s.retryCounter)) = some (true, 1, 0) := by
  decide

/-- C8, amended: for every sequence of read outcomes the loop ends, with at most
`MAX_RETRIES` writes, all of the SET frame; at the `n`-th loop head exactly `n` SET frames have
been written and `n` is the retry counter, plus one when `ua_received` is set (so the two are
equal at every head from which a pass starts); a pass whose read is not an I/O error either
leaves `ua_received` as it was and increases the counter by exactly 1, or sets `ua_received`,
keeps the counter and makes the loop condition false; and the loop ends, in the state of that
head and without a further write, at any head where the condition is false. -/
theorem c8_bounded_retries (link : Nat → Read) :
    (∃ t, initiatorLoop link = some t ∧ t.written.length ≤ MAX_RETRIES ∧
      ∀ f ∈ t.written, f = SET_FRAME) ∧
    (∀ n s, headState link n = some s →
      s.written = List.replicate n SET_FRAME ∧
      n = s.retryCounter + (if s.ua_received = true then 1 else 0) ∧ n ≤ MAX_RETRIES) ∧
    (∀ s r, r ≠ Read.ioError →
      ((loopBody s r).ua_received = s.ua_received ∧
        (loopBody s r).retryCounter = s.retryCounter + 1) ∨
      ((loopBody s r).ua_received = true ∧ (loopBody s r).retryCounter = s.retryCounter ∧
        loopCond (loopBody s r) = false)) ∧
    (∀ n s, headState link n = some s → loopCond s = false → initiatorLoop link = some s) := by
  refine ⟨loop_writes_bounded link, ?_, ?_, ?_⟩
  · intro n s h
    exact (head_inv link n s h).2
  · intro s r h1
    by_cases h2 : r = Read.bytes EXPECTED_UA
    · right
      rw [h2]
      obtain ⟨a, b, _, _⟩ := loopBody_success s
      exact ⟨b, a, by simp [loopCond, b]⟩
    · left
      obtain ⟨a, b, _, _⟩ := loopBody_fail s r h1 h2
      exact ⟨b, a⟩
  · intro n s h hc
    rw [← head_loop link n s h]
    exact loopFrom_done link _ n s (by simp [hc])

/-- C9, failing input: when all three reads return zero bytes the loop is left (three
retries, `ua_received` FALSE, no exit) with the alarm still armed: the zero-byte branch runs
`continue` before `alarm(0)` is reached.  For every pass, the alarm is pending after it exactly
when its read returned zero bytes or failed with an I/O error; a timeout, a wrong frame and
the UA frame leave it disarmed. -/
theorem c9_alarm_armed_after_zero_byte_reads :
    (initiatorLoop (fun _ => Read.bytes [])).map
      (fun t => (t.retryCounter, t.ua_received, t.exited, t.alarmArmed)) =
      some (3, false, false, true) ∧
    ∀ s r, (loopBody s r).alarmArmed = true ↔ (r = Read.bytes [] ∨ r = Read.ioError) := by
  refine ⟨by decide, ?_⟩
  intro s r
  cases r with
  | timeout => simp [loopBody, alarm, expire, alarmHandler]
  | ioError => simp [loopBody, alarm, expire, alarmHandler, TIMEOUT_SEC]
  | bytes l =>
    by_cases h0 : l = []
    · subst h0
      simp [loopBody, alarm, TIMEOUT_SEC]
    · have hl : l.length ≠ 0 := by
        intro h
        exact h0 (List.length_eq_zero.mp h)
      simp only [loopBody, alarm, hl, if_false]
      split <;> simp [h0]

/-- C10: when 7E 01 07 06 7E is split into a non-empty beginning `p`, received in attempt `N`
(which times out or reads `p` as a wrong frame), and the non-empty rest `q`, read in attempt
`N + 1`, neither pass sets `ua_received`, so it is FALSE at the loop heads after them; a pass
sets `ua_received` only when its read returns exactly 7E 01 07 06 7E, and the loop ends with
`ua_received` set only if one of its reads did. -/
theorem c10_split_frame_not_accepted (link : Nat → Read) (N : Nat) (p q : List Nat)
    (hsplit : p ++ q = EXPECTED_UA) (hp : p ≠ []) (hq : q ≠ [])
    (hN : link N = Read.timeout ∨ link N = Read.bytes p) (hN1 : link (N + 1) = Read.bytes q) :
    (∀ s, s.ua_received = false →
      (loopBody s (link N)).ua_received = false ∧
      (loopBody (loopBody s (link N)) (link (N + 1))).ua_received = false) ∧
    (∀ t, headState link (N + 1) = some t → t.ua_received = false) ∧
    (∀ t, headState link (N + 2) = some t → t.ua_received = false) ∧
    (∀ s r, s.ua_received = false →
      ((loopBody s r).ua_received = true ↔ r = Read.bytes EXPECTED_UA)) ∧
    (∀ t, initiatorLoop link = some t → t.ua_received = true →
      ∃ k, k < MAX_RETRIES ∧ link k = Read.bytes EXPECTED_UA) := by
  have hlen : p.length + q.length = 5 := by
    rw [← List.length_append, hsplit]
    rfl
  have hpl : 0 < p.length := List.length_pos.mpr hp
  have hql : 0 < q.length := List.length_pos.mpr hq
  have hpne : p ≠ EXPECTED_UA := by
    intro h
    have h5 : p.length = 5 := by rw [h]; rfl
    omega
  have hqne : q ≠ EXPECTED_UA := by
    intro h
    have h5 : q.length = 5 := by rw [h]; rfl
    omega
  have hNne : link N ≠ Read.bytes EXPECTED_UA := by
    rcases hN with h | h
    · rw [h]
      simp
    · rw [h]
      simpa using hpne
  have hN1ne : link (N + 1) ≠ Read.bytes EXPECTED_UA := by
    rw [hN1]
    simpa using hqne
  have hpass : ∀ (s : Loop) (r : Read), s.ua_received = false → r ≠ Read.bytes EXPECTED_UA →
      (loopBody s r).ua_received = false := by
    intro s r hs hr
    cases hu : (loopBody s r).ua_received with
    | false => rfl
    | true =>
      rcases (loopBody_ua s r).mp hu with h | h
      · rw [hs] at h
        exact absurd h (by decide)
      · exact absurd h hr
  have hhead : ∀ n, link n ≠ Read.bytes EXPECTED_UA → ∀ t, headState link (n + 1) = some t →
      t.ua_received = false := by
    intro n hn t ht
    obtain ⟨s, _, hc, _, hts⟩ := (headState_succ link n t).mp ht
    rw [hts]
    exact hpass s (link n) ((loopCond_iff s).mp hc).2 hn
  refine ⟨?_, hhead N hNne, hhead (N + 1) hN1ne, ?_, ?_⟩
  · intro s hs
    have h1 := hpass s (link N) hs hNne
    exact ⟨h1, hpass _ (link (N + 1)) h1 hN1ne⟩
  · intro s r hs
    rw [loopBody_ua, hs]
    simp
  · intro t ht hu
    rcases loopFrom_ua link MAX_RETRIES 0 start t ht hu with h | ⟨j, _, hj, hl⟩
    · exact absurd h (by decide)
    · exact ⟨j, by omega, hl⟩

/-- C10 on the split 7E 01 | 07 06 7E, read in attempts 0 and 1. -/
theorem c10_split_frame_not_accepted_witness :
    ([0x7E, 0x01] ++ [0x07, 0x06, 0x7E] = EXPECTED_UA ∧ [0x7E, 0x01] ≠ ([] : List Nat) ∧
      [0x07, 0x06, 0x7E] ≠ ([] : List Nat) ∧
      ((fun k => if k = 0 then Read.bytes [0x7E, 0x01] else Read.bytes [0x07, 0x06, 0x7E]) 0 =
          Read.timeout ∨
        (fun k => if k = 0 then Read.bytes [0x7E, 0x01] else Read.bytes [0x07, 0x06, 0x7E]) 0 =
          Read.bytes [0x7E, 0x01]) ∧
      (fun k => if k = 0 then Read.bytes [0x7E, 0x01] else Read.bytes [0x07, 0x06, 0x7E]) (0 + 1) =
        Read.bytes [0x07, 0x06, 0x7E]) ∧
    ((∀ s, s.ua_received = false →
      (loopBody s ((fun k => if k = 0 then Read.bytes [0x7E, 0x01]
          else Read.bytes [0x07, 0x06, 0x7E]) 0)).ua_received = false ∧
      (loopBody (loopBody s ((fun k => if k = 0 then Read.bytes [0x7E, 0x01]
          else Read.bytes [0x07, 0x06, 0x7E]) 0))
        ((fun k => if k = 0 then Read.bytes [0x7E, 0x01]
          else Read.bytes [0x07, 0x06, 0x7E]) (0 + 1))).ua_received = false) ∧
    (∀ t, headState (fun k => if k = 0 then Read.bytes [0x7E, 0x01]
        else Read.bytes [0x07, 0x06, 0x7E]) (0 + 1) = some t → t.ua_received = false) ∧
    (∀ t, headState (fun k => if k = 0 then Read.bytes [0x7E, 0x01]
        else Read.bytes [0x07, 0x06, 0x7E]) (0 + 2) = some t → t.ua_received = false) ∧
    (∀ s r, s.ua_received = false →
      ((loopBody s r).ua_received = true ↔ r = Read.bytes EXPECTED_UA)) ∧
    (∀ t, initiatorLoop (fun k => if k = 0 then Read.bytes [0x7E, 0x01]
        else Read.bytes [0x07, 0x06, 0x7E]) = some t → t.ua_received = true →
      ∃ k, k < MAX_RETRIES ∧
        (fun k => if k = 0 then Read.bytes [0x7E, 0x01]
          else Read.bytes [0x07, 0x06, 0x7E]) k = Read.bytes EXPECTED_UA)) :=
  ⟨⟨rfl, by decide, by decide, Or.inr rfl, rfl⟩,
    c10_split_frame_not_accepted
      (fun k => if k = 0 then Read.bytes [0x7E, 0x01] else Read.bytes [0x07, 0x06, 0x7E]) 0
      [0x7E, 0x01] [0x07, 0x06, 0x7E] rfl (by decide) (by decide) (Or.inr rfl) rfl⟩

end Initiator

/-! ## The responder: zero-length reads, the scratch buffer, noise without FLAG -/

namespace Responder

theorem responderLoop_reads (s : Loop) (os : List (Option Nat)) :
    responderLoop s (os.map readOf) = responderLoop s (os.reduceOption.map Read.byte) := by
  induction os generalizing s with
  | nil => rfl
  | cons o os ih =>
    by_cases hh : (s.STOP || s.exited) = true
    · rw [responderLoop_halted s _ hh, responderLoop_halted s _ hh]
    · cases o with
      | none =>
        simp only [List.map_cons, readOf, responderLoop, hh, if_false, loopBody,
          List.reduceOption_cons_of_none]
        exact ih s
      | some b =>
        simp only [List.map_cons, readOf, responderLoop, hh, if_false, loopBody,
          List.reduceOption_cons_of_some]
        exact ih _

/-- Zero-length reads change nothing: the run is the run on the bytes read. -/
theorem feedReads_eq_feed (buf : Buffer) (os : List (Option Nat)) :
    feedReads buf os = feed buf os.reduceOption :=
  responderLoop_reads (start buf) os

/-- When the match comes at the byte `b`, the bytes consumed end with the SET frame. -/
theorem match_at_last_byte (buf : Buffer) (bs : List Nat) (b : Nat)
    (h0 : (feed buf bs).STOP = false) (h1 : (feed buf (bs ++ [b])).STOP = true) :
    ∃ pre, bs ++ [b] = pre ++ [0x7E, 0x03, 0x03, 0x00, 0x7E] := by
  obtain ⟨pre, post, hbs, hpre⟩ := (match_iff_frame_at_start buf (bs ++ [b])).mp h1
  rcases List.eq_nil_or_concat post with hp | ⟨post2, c, hp⟩
  · subst hp
    exact ⟨pre, by simpa using hbs⟩
  · subst hp
    have hbs2 : bs ++ [b] = (pre ++ [0x7E, 0x03, 0x03, 0x00, 0x7E] ++ post2) ++ [c] := by
      rw [hbs]
      simp
    have hbs3 := List.append_inj_left' hbs2 rfl
    have hstop := (match_iff_frame_at_start buf bs).mpr ⟨pre, post2, hbs3, hpre⟩
    rw [h0] at hstop
    exact absurd hstop (by decide)

theorem noise_ignored (buf : Buffer) (n : List Nat) (h : ∀ b ∈ n, b ≠ 0x7E) :
    feed buf n = start buf := by
  induction n using List.reverseRecOn with
  | nil => rfl
  | append_singleton n b ih =>
    have hn : ∀ c ∈ n, c ≠ 0x7E := fun c hc => h c (List.mem_append_left _ hc)
    have hb : b ≠ 0x7E := h b (by simp)
    rw [feed_snoc, ih hn]
    simp [start, switchState, hb]

/-- C12: for every sequence of reads that do not fail (bytes and zero-length reads), started
in `WAIT_FOR_FLAG`: the UA frame has been written at most once; `STOP` is set exactly when it
has been written, and from then on further reads change nothing; the process has not exited
(no mismatch ends the loop); and when the match comes at a read, that read is the byte 7E, at
least five bytes have been consumed and the last five are 7E 03 03 00 7E. -/
theorem c12_answers_only_set (buf : Buffer) (os : List (Option Nat)) :
    ((feedReads buf os).written = [] ∨ (feedReads buf os).written = [UA_FRAME]) ∧
    ((feedReads buf os).STOP = true ↔ (feedReads buf os).written = [UA_FRAME]) ∧
    ((feedReads buf os).STOP = true → ∀ more, feedReads buf (os ++ more) = feedReads buf os) ∧
    (feedReads buf os).exited = false ∧
    (∀ o, (feedReads buf os).STOP = false → (feedReads buf (os ++ [o])).STOP = true →
      o = some 0x7E ∧ 5 ≤ (os ++ [o]).reduceOption.length ∧
      ∃ pre, (os ++ [o]).reduceOption = pre ++ [0x7E, 0x03, 0x03, 0x00, 0x7E]) := by
  refine ⟨?_, ?_, ?_, ?_, ?_⟩
  · rw [feedReads_eq_feed]
    obtain ⟨_, ht, hf⟩ := reach_facts buf os.reduceOption
    cases hs : (feed buf os.reduceOption).STOP with
    | false => exact Or.inl (hf hs).1
    | true => exact Or.inr (ht hs).1
  · rw [feedReads_eq_feed]
    exact stop_iff_written buf _
  · intro hs more
    simp only [feedReads, List.map_append, responderLoop_append]
    exact responderLoop_stop_mono _ _ hs
  · rw [feedReads_eq_feed]
    exact feed_not_exited buf _
  · intro o h0 h1
    rw [feedReads_eq_feed] at h0 h1
    cases o with
    | none =>
      rw [List.reduceOption_append] at h1
      simp only [List.reduceOption_cons_of_none, List.reduceOption_nil,
        List.append_nil] at h1
      rw [h0] at h1
      exact absurd h1 (by decide)
    | some b =>
      have hr : (os ++ [some b]).reduceOption = os.reduceOption ++ [b] := by
        rw [List.reduceOption_append]
        rfl
      rw [hr] at h1
      obtain ⟨pre, hpre⟩ := match_at_last_byte buf _ b h0 h1
      have hb : b = 0x7E := by
        have h2 := congrArg List.getLast? hpre
        simpa using h2
      rw [hr, hpre]
      exact ⟨by rw [hb], by simp, pre, rfl⟩

/-- The states C13 speaks about are reached: 7E 03 03 leads to `WAIT_FOR_BCC`, and the whole
frame to the match, from a buffer filled with other values. -/
theorem bcc_and_match_reached :
    (feed ⟨9, 9, 9, 9, 9⟩ [0x7E, 0x03, 0x03]).state = State.WAIT_FOR_BCC ∧
    (feed ⟨9, 9, 9, 9, 9⟩ [0x7E, 0x03, 0x03, 0x00, 0x7E]).STOP = true := by
  decide

/-- C13: for every initial content of `received_frame` and every byte sequence, when the match
has been produced the buffer holds exactly 7E 03 03 00 7E; and in every reachable
`WAIT_FOR_BCC` state `received_frame[1]` and `received_frame[2]` are both 03, so the only byte
that leads on to `WAIT_FOR_FLAG_END` is 00. -/
theorem c13_buffer_at_match (buf : Buffer) (bs : List Nat) :
    ((feed buf bs).STOP = true →
      (feed buf bs).received_frame = ⟨0x7E, 0x03, 0x03, 0x00, 0x7E⟩) ∧
    ((feed buf bs).state = State.WAIT_FOR_BCC →
      (feed buf bs).STOP = false ∧
      (feed buf bs).received_frame.b1 = 0x03 ∧ (feed buf bs).received_frame.b2 = 0x03 ∧
      ∀ b, (switchState (feed buf bs) b).state = State.WAIT_FOR_FLAG_END ↔ b = 0x00) := by
  have h := (tracks_feed buf bs).2
  constructor
  · intro hs
    simp only [hs, if_true] at h
    exact h.2.2.1
  · intro hst
    cases hs : (feed buf bs).STOP with
    | true =>
      simp only [hs, if_true] at h
      rw [h.2.1] at hst
      exact absurd hst (by decide)
    | false =>
      simp only [hs, Bool.false_eq_true, if_false, hst] at h
      obtain ⟨_, _, h1, h2, _⟩ := h
      refine ⟨rfl, h1, h2, ?_⟩
      intro b
      by_cases hb : b = 0
      · simp [switchState, hst, h1, h2, hb]
      · simp [switchState, hst, h1, h2, hb]

/-- C14: for every noise sequence `n` without the byte 7E, the responder fed `n` and then
7E 03 03 00 7E is in `WAIT_FOR_FLAG`, still running, after every beginning of `n`, produces no
match at any byte before the last one and produces the match, writing UA once, at the last
byte of the frame. -/
theorem c14_flagless_noise_then_set (buf : Buffer) (n : List Nat) (h : ∀ b ∈ n, b ≠ 0x7E) :
    (∀ j : Fin (n.length + 1),
      (feed buf (List.take j.val n)).state = State.WAIT_FOR_FLAG ∧
      (feed buf (List.take j.val n)).STOP = false) ∧
    (∀ j : Fin (n.length + 5),
      (feed buf (List.take j.val (n ++ [0x7E, 0x03, 0x03, 0x00, 0x7E]))).STOP = false) ∧
    (feed buf (n ++ [0x7E, 0x03, 0x03, 0x00, 0x7E])).STOP = true ∧
    (feed buf (n ++ [0x7E, 0x03, 0x03, 0x00, 0x7E])).written = [UA_FRAME] := by
  have hn := noise_ignored buf n h
  have haw : awaitsFrame (feed buf n) := by
    rw [hn]
    exact ⟨rfl, Or.inl rfl⟩
  have hex := feed_not_exited buf n
  have h4 : (feed buf (List.take (n.length + 4)
      (n ++ [0x7E, 0x03, 0x03, 0x00, 0x7E]))).STOP = false := by
    have ht : List.take (n.length + 4) (n ++ [0x7E, 0x03, 0x03, 0x00, 0x7E]) =
        n ++ [0x7E, 0x03, 0x03, 0x00] := by
      simp [List.take_append_eq_append_take]
    rw [ht, feed_append]
    exact frame_head_running _ haw hex
  have h5 := (frame_matches _ haw hex).1
  rw [← feed_append] at h5
  refine ⟨?_, ?_, h5, (stop_iff_written buf _).mp h5⟩
  · intro j
    have hj : feed buf (List.take j.val n) = start buf :=
      noise_ignored buf _ (fun b hb => h b (List.mem_of_mem_take hb))
    rw [hj]
    exact ⟨rfl, rfl⟩
  · intro j
    exact no_match_before buf _ (n.length + 4) j.val (by omega) h4

/-- C14 on the noise 01 03, buffer initially zero. -/
theorem c14_flagless_noise_then_set_witness :
    (∀ b ∈ [0x01, 0x03], b ≠ 0x7E) ∧
    ((∀ j : Fin ([0x01, 0x03].length + 1),
      (feed ⟨0, 0, 0, 0, 0⟩ (List.take j.val [0x01, 0x03])).state = State.WAIT_FOR_FLAG ∧
      (feed ⟨0, 0, 0, 0, 0⟩ (List.take j.val [0x01, 0x03])).STOP = false) ∧
    (∀ j : Fin ([0x01, 0x03].length + 5),
      (feed ⟨0, 0, 0, 0, 0⟩
        (List.take j.val ([0x01, 0x03] ++ [0x7E, 0x03, 0x03, 0x00, 0x7E]))).STOP = false) ∧
    (feed ⟨0, 0, 0, 0, 0⟩ ([0x01, 0x03] ++ [0x7E, 0x03, 0x03, 0x00, 0x7E])).STOP = true ∧
    (feed ⟨0, 0, 0, 0, 0⟩ ([0x01, 0x03] ++ [0x7E, 0x03, 0x03, 0x00, 0x7E])).written =
      [UA_FRAME]) :=
  ⟨by decide, c14_flagless_noise_then_set ⟨0, 0, 0, 0, 0⟩ [0x01, 0x03] (by decide)⟩

end Responder

/-! ## The frames on the wire -/

/-- C11: the initiator's `SET_FRAME`, after its checksum assignment, is 7E 03 03 00 7E with
byte 3 the XOR of bytes 1 and 2; the responder's `UA_FRAME` is 7E 01 07 06 7E with byte 3 the
XOR of bytes 1 and 2; and `UA_FRAME` equals the initiator's `EXPECTED_UA` byte for byte. -/
theorem c11_frames_bit_exact :
    Initiator.SET_FRAME = [0x7E, 0x03, 0x03, 0x00, 0x7E] ∧
    Initiator.SET_FRAME.getD 3 0 =
      Initiator.SET_FRAME.getD 1 0 ^^^ Initiator.SET_FRAME.getD 2 0 ∧
    Responder.UA_FRAME = [0x7E, 0x01, 0x07, 0x06, 0x7E] ∧
    Responder.UA_FRAME.getD 3 0 =
      Responder.UA_FRAME.getD 1 0 ^^^ Responder.UA_FRAME.getD 2 0 ∧
    Responder.UA_FRAME = Initiator.EXPECTED_UA ∧
    Responder.UA_FRAME.length = Responder.FRAME_SIZE ∧
    Initiator.SET_FRAME.length = Initiator.FRAME_SIZE := by
  decide
